import Mathlib

/-!
Verification of the WeightQuestTracker workout dashboard (`app.py`).

The development shallowly embeds the data-processing parts of the program:
the CSV loader (`load_data`), the in-memory session state (entry table and
session accumulator), the form-submission state transition, the progress
metrics and the daily statistics.  Numeric cell values are modelled as
rationals, missing values (NaN/NaT) as `Option.none`, timestamps as natural
numbers produced by an order-preserving encoding of
(year, month, day, hour, minute, second).
-/

namespace WeightQuest

/-- `WORKOUT_AREAS` from app.py line 13. -/
def WORKOUT_AREAS : List String :=
  ["Shoulder", "Bicep", "Chest", "Tricep", "Upper leg", "Calf", "Back"]

/-- `GOAL_WEIGHT` from app.py line 14. -/
def GOAL_WEIGHT : ℚ := 500000

/-- Order-preserving encoding of a calendar timestamp into `ℕ`
(seconds, with every month given 31 slots for days). -/
def mkTs (year month day hour minute second : Nat) : Nat :=
  ((((year * 12 + (month - 1)) * 31 + (day - 1)) * 24 + hour) * 60 + minute) * 60
    + second

/-- If `p` is a prefix of `l`, return the remainder of `l`, else `none`. -/
def dropPrefixL : List Char → List Char → Option (List Char)
  | [], l => some l
  | _ :: _, [] => none
  | p :: ps, c :: cs => if c = p then dropPrefixL ps cs else none

/-- Split a character list on every occurrence of a separator; the fuel
argument (any bound on the length) makes the recursion structural. -/
def splitOnLAux (sep : List Char) : Nat → List Char → List (List Char)
  | _, [] => [[]]
  | 0, l => [l]
  | fuel + 1, c :: cs =>
    match dropPrefixL sep (c :: cs) with
    | some rest => [] :: splitOnLAux sep fuel rest
    | none =>
      match splitOnLAux sep fuel cs with
      | [] => [[c]]
      | t :: ts => (c :: t) :: ts

/-- Split a character list on every occurrence of a non-empty separator
(the model of `str.split`). -/
def splitOnL (sep : List Char) (l : List Char) : List (List Char) :=
  splitOnLAux sep l.length l

/-- The numeric value of a decimal digit character. -/
def digitVal (c : Char) : Option Nat :=
  if '0' ≤ c ∧ c ≤ '9' then some (c.toNat - '0'.toNat) else none

/-- Accumulate decimal digits into a natural number; `none` on a
non-digit. -/
def digitsToNatAux : List Char → Nat → Option Nat
  | [], acc => some acc
  | c :: cs, acc =>
    match digitVal c with
    | some d => digitsToNatAux cs (acc * 10 + d)
    | none => none

/-- Parse a non-empty all-digit character list as a natural number. -/
def digitsToNat (l : List Char) : Option Nat :=
  match l with
  | [] => none
  | _ :: _ => digitsToNatAux l 0

/-- Full month name to month number, as matched by the `%B` directive. -/
def monthIndex : String → Option Nat
  | "January" => some 1
  | "February" => some 2
  | "March" => some 3
  | "April" => some 4
  | "May" => some 5
  | "June" => some 6
  | "July" => some 7
  | "August" => some 8
  | "September" => some 9
  | "October" => some 10
  | "November" => some 11
  | "December" => some 12
  | _ => none

/-- `%p` directive: AM/PM marker converting a 12-hour clock value to 24-hour. -/
def applyAmPm (marker : String) (hour12 : Nat) : Option Nat :=
  match marker with
  | "AM" => some (if hour12 = 12 then 0 else hour12)
  | "PM" => some (if hour12 = 12 then 12 else hour12 + 12)
  | _ => none

/-- Parse one `Date` cell with the fixed format
`%B %d, %Y at %I:%M:%S %p` used at app.py line 34
(e.g. `January 2, 2025 at 10:00:00 AM`); `none` on mismatch. -/
def parseDate (s : String) : Option Nat := do
  match splitOnL " at ".toList s.toList with
  | [datePart, timePart] =>
    match splitOnL ", ".toList datePart with
    | [monthDay, yearStr] =>
      match splitOnL " ".toList monthDay with
      | [monthTok, dayTok] => do
        let month ← monthIndex (String.mk monthTok)
        let day ← digitsToNat dayTok
        let year ← digitsToNat yearStr
        match splitOnL " ".toList timePart with
        | [hms, marker] =>
          match splitOnL ":".toList hms with
          | [hTok, minTok, secTok] => do
            let hour12 ← digitsToNat hTok
            let minute ← digitsToNat minTok
            let second ← digitsToNat secTok
            guard (1 ≤ day ∧ day ≤ 31 ∧ 1 ≤ hour12 ∧ hour12 ≤ 12 ∧
              minute ≤ 59 ∧ second ≤ 59)
            let hour ← applyAmPm (String.mk marker) hour12
            pure (mkTs year month day hour minute second)
          | _ => none
        | _ => none
      | _ => none
    | _ => none
  | _ => none

/-- Drop every comma, as `str.replace(',', '')` does at app.py line 38. -/
def stripCommas (s : String) : String :=
  String.mk (s.toList.filter (fun c => c ≠ ','))

/-- Parse an unsigned decimal numeral (optional fractional part) into
`ℚ`; `none` on malformed input. -/
def parseRatMag (body : List Char) : Option ℚ :=
  match splitOnL ".".toList body with
  | [intPart] => (digitsToNat intPart).map (fun n => (n : ℚ))
  | [intPart, fracPart] => do
    let n ← digitsToNat intPart
    let f ← digitsToNat fracPart
    pure ((n : ℚ) + (f : ℚ) / (10 ^ fracPart.length))
  | _ => none

/-- Parse a decimal numeral (optional sign, optional fractional part)
into `ℚ`; `none` on malformed input, as `pd.to_numeric` coerces. -/
def parseRat (s : String) : Option ℚ :=
  match s.toList with
  | '-' :: body => (parseRatMag body).map (fun q => -q)
  | body => parseRatMag body

/-- `pd.to_numeric(cell.astype(str).str.replace(',', ''), errors='coerce')`
applied to one cell (app.py lines 37-38): missing stays missing, a
malformed numeral is coerced to missing. -/
def parseNumeric (cell : Option String) : Option ℚ :=
  cell.bind (fun s => parseRat (stripCommas s))

/-- One raw CSV row: the four columns of the input table, each cell
possibly missing (NaN). -/
structure RawRow where
  workoutArea : Option String
  date : Option String
  totalLifted : Option String
  weightLeft : Option String
deriving Repr, DecidableEq

/-- One loaded entry of the in-memory table: the four columns after the
cleaning of `load_data`; `ts` is the parsed `Date` (`none` = NaT),
the numeric cells are `none` when coerced to NaN. -/
structure WorkoutEntry where
  area : String
  ts : Option Nat
  totalLifted : Option ℚ
  weightLeft : Option ℚ
deriving Repr, DecidableEq

/-- Timestamp comparison used by `sort_values('Date')`: missing (NaT)
sorts last. -/
def tsLe (a b : Option Nat) : Bool :=
  match a, b with
  | _, none => true
  | none, some _ => false
  | some x, some y => decide (x ≤ y)

/-- Sorting relation on entries: non-decreasing timestamp, NaT last. -/
def entryLe (a b : WorkoutEntry) : Prop := tsLe a.ts b.ts = true

instance : DecidableRel entryLe := fun a b =>
  inferInstanceAs (Decidable (tsLe a.ts b.ts = true))

instance : IsTotal WorkoutEntry entryLe := by
  constructor
  intro a b
  unfold entryLe tsLe
  rcases a.ts with _ | x <;> rcases b.ts with _ | y <;> simp
  exact Nat.le_total x y

instance : IsTrans WorkoutEntry entryLe := by
  constructor
  intro a b c
  unfold entryLe tsLe
  rcases a.ts with _ | x <;> rcases b.ts with _ | y <;> rcases c.ts with _ | z <;>
    simp
  exact Nat.le_trans

/-- `dropna(how='all')` keeps a row iff some cell is present (app.py line 27). -/
def rowNotAllEmpty (r : RawRow) : Bool :=
  r.workoutArea.isSome || r.date.isSome || r.totalLifted.isSome || r.weightLeft.isSome

/-- The row filters of `load_data` (app.py lines 27-31): drop fully empty
rows, rows with a missing `Workout Area`, and the sentinel `Totals` row. -/
def filterRows (rows : List RawRow) : List RawRow :=
  ((rows.filter rowNotAllEmpty).filter (fun r => r.workoutArea.isSome)).filter
    (fun r => r.workoutArea ≠ some "Totals")

/-- `pd.to_datetime(col, format=...)` on one cell (app.py line 34): a missing
cell stays missing (NaT), a string failing the format raises
(default `errors='raise'`). -/
def toDatetimeCell (cell : Option String) : Except String (Option Nat) :=
  match cell with
  | none => Except.ok none
  | some s =>
    match parseDate s with
    | some t => Except.ok (some t)
    | none => Except.error ("time data " ++ s ++ " does not match format")

/-- Convert one filtered row into an entry: parse the date (raising on a
malformed string) and coerce the two numeric cells. -/
def convertRow (r : RawRow) : Except String WorkoutEntry :=
  match toDatetimeCell r.date with
  | Except.error m => Except.error m
  | Except.ok t =>
    Except.ok { area := r.workoutArea.getD "", ts := t,
                totalLifted := parseNumeric r.totalLifted,
                weightLeft := parseNumeric r.weightLeft }

/-- Convert the filtered rows in order, raising on the first malformed
date string (as the column-wise `pd.to_datetime` raises). -/
def convertRows : List RawRow → Except String (List WorkoutEntry)
  | [] => Except.ok []
  | r :: rest =>
    match convertRow r with
    | Except.error m => Except.error m
    | Except.ok e =>
      match convertRows rest with
      | Except.error m => Except.error m
      | Except.ok es => Except.ok (e :: es)

/-- The body of `load_data`'s `try` block (app.py lines 21-43): filter rows,
parse the `Date` column (raising on a malformed string), coerce the numeric
columns, sort ascending by date. -/
def loadPipeline (rows : List RawRow) : Except String (List WorkoutEntry) :=
  match convertRows (filterRows rows) with
  | Except.error m => Except.error m
  | Except.ok entries => Except.ok (List.insertionSort entryLe entries)

/-- `load_data` (app.py lines 18-46).  The argument models the outcome of
`pd.read_csv`: `Except.error` is a file-level failure (missing file,
unreadable format).  Returns the loaded table together with the reported
error message, if any: every raised failure is caught, reported, and an
empty table returned. -/
def load_data (input : Except String (List RawRow)) :
    List WorkoutEntry × Option String :=
  match input with
  | Except.error e => ([], some ("Error loading data: " ++ e))
  | Except.ok rows =>
    match loadPipeline rows with
    | Except.ok entries => (entries, none)
    | Except.error e => ([], some ("Error loading data: " ++ e))

/-- The session state (app.py lines 49-52): the in-memory entry table and
the running session-total accumulator. -/
structure AppState where
  data : List WorkoutEntry
  sessionTotal : ℚ
deriving Repr, DecidableEq

/-- State on process start: the loaded table and a zero accumulator
(app.py lines 49-52). -/
def initState (input : Except String (List RawRow)) : AppState :=
  { data := (load_data input).1, sessionTotal := 0 }

/-- The `Add to Total` button (app.py lines 97-98):
`st.session_state.session_total += weight_to_add`. -/
def addToTotal (st : AppState) (weightToAdd : ℚ) : AppState :=
  { st with sessionTotal := st.sessionTotal + weightToAdd }

/-- A value of the `Date` form widget. -/
structure FormDate where
  year : Nat
  month : Nat
  day : Nat
deriving Repr, DecidableEq

/-- A value of the `Time` form widget. -/
structure FormTime where
  hour : Nat
  minute : Nat
  second : Nat
deriving Repr, DecidableEq

/-- `datetime.combine(date, time)` (app.py line 109): defined exactly when
the date and time fields are in range (an out-of-range pair raises). -/
def datetimeCombine (d : FormDate) (t : FormTime) : Option Nat :=
  if 1 ≤ d.month ∧ d.month ≤ 12 ∧ 1 ≤ d.day ∧ d.day ≤ 31 ∧
      t.hour ≤ 23 ∧ t.minute ≤ 59 ∧ t.second ≤ 59 then
    some (mkTs d.year d.month d.day t.hour t.minute t.second)
  else
    none

/-- `float(st.session_state.data['Weight Left'].iloc[-1]) if not empty else
GOAL_WEIGHT` (app.py line 112); the last entry's NaN propagates. -/
def currentWeightLeft (data : List WorkoutEntry) : Option ℚ :=
  match data.getLast? with
  | some e => e.weightLeft
  | none => some GOAL_WEIGHT

/-- The `Add Workout` submit handler (app.py lines 106-131): combine date and
time, compute the new remaining weight, append one entry, reset the
accumulator; any failure is caught and reported with the state unchanged. -/
def submitWorkout (st : AppState) (workoutArea : String) (d : FormDate)
    (t : FormTime) : AppState × Option String :=
  match datetimeCombine d t with
  | none => (st, some "Error adding workout")
  | some ts =>
    let weightLeft := (currentWeightLeft st.data).map
      (fun w => w - st.sessionTotal)
    let newEntry : WorkoutEntry :=
      { area := workoutArea, ts := some ts,
        totalLifted := some st.sessionTotal, weightLeft := weightLeft }
    ({ data := st.data ++ [newEntry], sessionTotal := 0 }, none)

/-- `total_lifted = GOAL_WEIGHT - weightLeft(lastEntry)` (app.py line 64). -/
def totalLiftedMetric (r : ℚ) : ℚ := GOAL_WEIGHT - r

/-- `progress = min(max(total_lifted / GOAL_WEIGHT, 0), 1)` (app.py line 68). -/
def progressMetric (r : ℚ) : ℚ :=
  min (max (totalLiftedMetric r / GOAL_WEIGHT) 0) 1

/-- The remaining weight of the last entry of the table, when present
(app.py line 65). -/
def lastWeightLeft (data : List WorkoutEntry) : Option ℚ :=
  data.getLast?.bind (fun e => e.weightLeft)

/-- The progress fraction displayed for a table (app.py lines 63-70). -/
def progressDisplayed (data : List WorkoutEntry) : Option ℚ :=
  (lastWeightLeft data).map progressMetric

/-- Clamp, written from the spec wording `clamp(x, lo, hi)`. -/
def clampQ (x lo hi : ℚ) : ℚ := min (max x lo) hi

/-- Calendar date of an encoded timestamp (`dt.date`, app.py line 176):
the day index of the encoding. -/
def dateOf (ts : Nat) : Nat := ts / 86400

/-- The `dt.date` grouping key of an entry; missing (NaT) gives no key,
and the row is dropped from the grouped statistics. -/
def entryDate (e : WorkoutEntry) : Option Nat := e.ts.map dateOf

/-- NaN-skipping cell value used by the pandas `sum` aggregation. -/
def liftedOrZero (e : WorkoutEntry) : ℚ := e.totalLifted.getD 0

/-- Add one observation `(day, weight)` into the association list of
per-day (sum, count) groups. -/
def insertDay (d : Nat) (w : ℚ) :
    List (Nat × ℚ × Nat) → List (Nat × ℚ × Nat)
  | [] => [(d, w, 1)]
  | (k, s, c) :: rest =>
    if k = d then (k, s + w, c + 1) :: rest
    else (k, s, c) :: insertDay d w rest

/-- Fold one entry into the per-day groups: rows with a missing date are
dropped by the grouping. -/
def dailyStep (acc : List (Nat × ℚ × Nat)) (e : WorkoutEntry) :
    List (Nat × ℚ × Nat) :=
  match entryDate e with
  | none => acc
  | some d => insertDay d (liftedOrZero e) acc

/-- `daily_stats` (app.py lines 176-179): group the table by calendar date
of `Date`, aggregating the per-day sum of `Total Lifted` and the per-day
count of entries. -/
def daily_stats (data : List WorkoutEntry) : List (Nat × ℚ × Nat) :=
  data.foldl dailyStep []

/-- Look up the (sum, count) aggregate of one day in the grouped table. -/
def lookupDay (d : Nat) : List (Nat × ℚ × Nat) → Option (ℚ × Nat)
  | [] => none
  | (k, s, c) :: rest => if k = d then some (s, c) else lookupDay d rest

/-- The entries of the table falling on calendar day `d`
(spec wording: group by calendar date). -/
def entriesOn (data : List WorkoutEntry) (d : Nat) : List WorkoutEntry :=
  data.filter (fun e => entryDate e = some d)

/-- Spec wording: per-day sum of weightLifted. -/
def daySum (data : List WorkoutEntry) (d : Nat) : ℚ :=
  ((entriesOn data d).map liftedOrZero).sum

/-- Spec wording: per-day count of entries. -/
def dayCount (data : List WorkoutEntry) (d : Nat) : Nat :=
  (entriesOn data d).length

/-- Spec wording: the distinct calendar days of the table. -/
def distinctDates (data : List WorkoutEntry) : List Nat :=
  (data.filterMap entryDate).dedup

/-- `daily_stats['Total Lifted'].mean()` (app.py line 183): the mean of the
per-day sums column. -/
def dailyMeanMetric (data : List WorkoutEntry) : ℚ :=
  ((daily_stats data).map (fun g => g.2.1)).sum / ((daily_stats data).length : ℚ)

/-- `daily_stats['Total Lifted'].max()` (app.py line 187): the max of the
per-day sums column (`⊥` models the NaN shown for an empty column). -/
def dailyMaxMetric (data : List WorkoutEntry) : WithBot ℚ :=
  ((daily_stats data).map (fun g => g.2.1)).maximum

/-- Merge a previous (sum, count) aggregate of one day with further
observations: used to characterise the grouping fold. -/
def combineDay (prev : Option (ℚ × Nat)) (s : ℚ) (c : Nat) : Option (ℚ × Nat) :=
  match prev with
  | some p => some (p.1 + s, p.2 + c)
  | none => if c = 0 then none else some (s, c)

/-- `len(daily_stats)` (app.py line 191): the number of grouped days. -/
def dailyCountMetric (data : List WorkoutEntry) : Nat :=
  (daily_stats data).length

/-- Sorted non-decreasing by timestamp (NaT last), checked over adjacent
pairs. -/
def sortedByTsB : List WorkoutEntry → Bool
  | [] => true
  | [_] => true
  | a :: b :: rest => tsLe a.ts b.ts && sortedByTsB (b :: rest)

/-- Sorted non-decreasing by timestamp, as a proposition. -/
def sortedByTs (l : List WorkoutEntry) : Prop := sortedByTsB l = true

instance : DecidablePred sortedByTs := fun l =>
  inferInstanceAs (Decidable (sortedByTsB l = true))

/-! ### Helper lemmas -/

theorem currentWeightLeft_of_last {data : List WorkoutEntry} {r : ℚ}
    (h : lastWeightLeft data = some r) : currentWeightLeft data = some r := by
  unfold lastWeightLeft at h
  unfold currentWeightLeft
  cases hl : data.getLast? with
  | none => rw [hl] at h; simp at h
  | some e => rw [hl] at h; simpa using h

theorem submitWorkout_eq (st : AppState) (area : String) (d : FormDate)
    (t : FormTime) (ts : Nat) (hts : datetimeCombine d t = some ts) :
    submitWorkout st area d t =
      ({ data := st.data ++
          [{ area := area, ts := some ts, totalLifted := some st.sessionTotal,
             weightLeft := (currentWeightLeft st.data).map
               (fun w => w - st.sessionTotal) }],
         sessionTotal := 0 }, none) := by
  unfold submitWorkout
  rw [hts]

theorem convertRows_error_of_mem {rows : List RawRow} {r : RawRow}
    (hr : r ∈ rows) {m : String} (hf : convertRow r = Except.error m) :
    ∃ m2, convertRows rows = Except.error m2 := by
  induction rows with
  | nil => cases hr
  | cons x xs ih =>
    rcases List.mem_cons.mp hr with h | h
    · subst h
      exact ⟨m, by simp [convertRows, hf]⟩
    · cases hx : convertRow x with
      | error m3 => exact ⟨m3, by simp [convertRows, hx]⟩
      | ok e =>
        rcases ih h with ⟨m2, hm2⟩
        exact ⟨m2, by simp [convertRows, hx, hm2]⟩

theorem convertRows_ok_mem {rows : List RawRow} {es : List WorkoutEntry}
    (h : convertRows rows = Except.ok es) {e : WorkoutEntry} (he : e ∈ es) :
    ∃ r ∈ rows, convertRow r = Except.ok e := by
  induction rows generalizing es with
  | nil =>
    unfold convertRows at h
    injection h with h
    subst h
    cases he
  | cons x xs ih =>
    unfold convertRows at h
    cases hx : convertRow x with
    | error m => rw [hx] at h; exact Except.noConfusion h
    | ok e0 =>
      rw [hx] at h
      cases hxs : convertRows xs with
      | error m => rw [hxs] at h; exact Except.noConfusion h
      | ok es0 =>
        rw [hxs] at h
        injection h with h
        subst h
        rcases List.mem_cons.mp he with h1 | h1
        · subst h1; exact ⟨x, List.mem_cons_self x xs, hx⟩
        · rcases ih hxs h1 with ⟨r, hrmem, hcr⟩
          exact ⟨r, List.mem_cons_of_mem x hrmem, hcr⟩

theorem sortedByTs_iff_chain' :
    ∀ l : List WorkoutEntry, sortedByTs l ↔ l.Chain' entryLe
  | [] => by simp [sortedByTs, sortedByTsB]
  | [a] => by simp [sortedByTs, sortedByTsB]
  | a :: b :: l => by
    rw [List.chain'_cons, ← sortedByTs_iff_chain' (b :: l)]
    simp [sortedByTs, sortedByTsB, entryLe, Bool.and_eq_true]

theorem load_sorted (input : Except String (List RawRow)) :
    sortedByTs (load_data input).1 := by
  match input with
  | Except.error m => simp [load_data, sortedByTs, sortedByTsB]
  | Except.ok rows =>
    cases hp : loadPipeline rows with
    | error m => simp only [load_data, hp]; decide
    | ok entries =>
      simp only [load_data, hp]
      unfold loadPipeline at hp
      cases hc : convertRows (filterRows rows) with
      | error m => rw [hc] at hp; exact Except.noConfusion hp
      | ok es =>
        rw [hc] at hp
        injection hp with hp
        subst hp
        rw [sortedByTs_iff_chain', List.chain'_iff_pairwise]
        exact List.sorted_insertionSort entryLe es

/-! ### Claim theorems -/

/-- **C1.** Submitting a workout with a successfully combined timestamp and a
readable previous remaining weight appends exactly one entry — timestamp the
combined date and time, weightLifted the accumulated session total,
weightRemaining the previous remaining weight (the goal for an empty table)
minus that total — and resets the accumulator to zero. -/
theorem submit_appends_one_entry (st : AppState) (area : String) (d : FormDate)
    (t : FormTime) (ts : Nat) (prev : ℚ)
    (hts : datetimeCombine d t = some ts)
    (hprev : currentWeightLeft st.data = some prev) :
    submitWorkout st area d t =
      ({ data := st.data ++
          [{ area := area, ts := some ts, totalLifted := some st.sessionTotal,
             weightLeft := some (prev - st.sessionTotal) }],
         sessionTotal := 0 }, none) := by
  rw [submitWorkout_eq st area d t ts hts, hprev]
  rfl

/-- Witness for C1: the Bicep example of the spec — accumulated weight 20 on
prior remaining 499980 yields weightLifted 20 and remaining 499960. -/
theorem submit_appends_one_entry_witness :
    submitWorkout
        ⟨[⟨"Bicep", some (mkTs 2025 1 1 9 0 0), some 20, some 499980⟩], 20⟩
        "Bicep" ⟨2025, 1, 2⟩ ⟨10, 0, 0⟩ =
      ({ data := [⟨"Bicep", some (mkTs 2025 1 1 9 0 0), some 20, some 499980⟩,
          ⟨"Bicep", some (mkTs 2025 1 2 10 0 0), some 20, some 499960⟩],
         sessionTotal := 0 }, none) := by
  have h := submit_appends_one_entry
    ⟨[⟨"Bicep", some (mkTs 2025 1 1 9 0 0), some 20, some 499980⟩], 20⟩
    "Bicep" ⟨2025, 1, 2⟩ ⟨10, 0, 0⟩ (mkTs 2025 1 2 10 0 0) 499980
    (by decide) (by decide)
  rw [h]
  norm_num

/-- **C3.** Round-trip: submitting on a non-empty table whose last remaining
weight is `r` and recomputing the progress metrics yields a remaining weight
of exactly `r` minus the accumulated total, with exact arithmetic. -/
theorem submit_roundtrip_remaining (st : AppState) (area : String)
    (d : FormDate) (t : FormTime) (ts : Nat) (r : ℚ)
    (_hne : st.data ≠ [])
    (hlast : lastWeightLeft st.data = some r)
    (hts : datetimeCombine d t = some ts) :
    lastWeightLeft (submitWorkout st area d t).1.data =
      some (r - st.sessionTotal) := by
  rw [submitWorkout_eq st area d t ts hts]
  simp [lastWeightLeft, currentWeightLeft_of_last hlast]

/-- Witness for C3 at a concrete one-entry table. -/
theorem submit_roundtrip_remaining_witness :
    lastWeightLeft (submitWorkout
        ⟨[⟨"Bicep", some 0, some 20, some 499980⟩], 20⟩
        "Chest" ⟨2025, 1, 2⟩ ⟨10, 0, 0⟩).1.data = some (499980 - 20) :=
  submit_roundtrip_remaining ⟨[⟨"Bicep", some 0, some 20, some 499980⟩], 20⟩
    "Chest" ⟨2025, 1, 2⟩ ⟨10, 0, 0⟩ (mkTs 2025 1 2 10 0 0) 499980
    (by decide) (by decide) (by decide)

/-- **C4.** For a table whose last remaining weight is readable, the displayed
progress fraction equals clamp(totalLifted / goal, 0, 1), hence lies in
[0, 1] — also under goal overshoot. -/
theorem progress_fraction_clamped (data : List WorkoutEntry) (r : ℚ)
    (hlast : lastWeightLeft data = some r) :
    progressDisplayed data =
      some (clampQ (totalLiftedMetric r / GOAL_WEIGHT) 0 1) ∧
    ∀ p, progressDisplayed data = some p → 0 ≤ p ∧ p ≤ 1 := by
  have hdisp : progressDisplayed data = some (progressMetric r) := by
    simp [progressDisplayed, hlast]
  refine ⟨by rw [hdisp]; rfl, ?_⟩
  intro p hp
  rw [hdisp] at hp
  injection hp with hpe
  subst hpe
  unfold progressMetric
  exact ⟨le_min (le_max_right _ _) zero_le_one, min_le_right _ _⟩

/-- Witness for C4 at an overshot table (negative remaining weight): the
displayed fraction is clamped to 1. -/
theorem progress_fraction_clamped_witness :
    progressDisplayed [⟨"Bicep", some 0, some 20, some (-100)⟩] =
      some (clampQ (totalLiftedMetric (-100) / GOAL_WEIGHT) 0 1) ∧
    clampQ (totalLiftedMetric (-100) / GOAL_WEIGHT) 0 1 = 1 := by
  constructor
  · exact (progress_fraction_clamped [⟨"Bicep", some 0, some 20, some (-100)⟩]
      (-100) (by decide)).1
  · norm_num [clampQ, totalLiftedMetric, GOAL_WEIGHT, min_def, max_def]

/-- **C6.** When combining the submitted date and time fails, the failure is
caught and reported, and both the table and the accumulator are exactly as
before the submission. -/
theorem submit_failure_leaves_state (st : AppState) (area : String)
    (d : FormDate) (t : FormTime)
    (hfail : datetimeCombine d t = none) :
    submitWorkout st area d t = (st, some "Error adding workout") := by
  unfold submitWorkout
  rw [hfail]

/-- Witness for C6: an out-of-range date (month 13) leaves a non-trivial
state untouched. -/
theorem submit_failure_leaves_state_witness :
    submitWorkout ⟨[⟨"Bicep", some 0, some 20, some 499980⟩], 35⟩ "Chest"
        ⟨2025, 13, 2⟩ ⟨10, 0, 0⟩ =
      (⟨[⟨"Bicep", some 0, some 20, some 499980⟩], 35⟩,
        some "Error adding workout") :=
  submit_failure_leaves_state ⟨[⟨"Bicep", some 0, some 20, some 499980⟩], 35⟩
    "Chest" ⟨2025, 13, 2⟩ ⟨10, 0, 0⟩ (by decide)

/-- **C7.** A file-level load failure is caught and reported, an empty table
is returned rather than a crash, and the resulting state still accepts a new
entry. -/
theorem load_failure_reported_empty (e : String) :
    load_data (Except.error e) = ([], some ("Error loading data: " ++ e)) ∧
    (submitWorkout (initState (Except.error e)) "Bicep" ⟨2025, 1, 2⟩
        ⟨10, 0, 0⟩).1.data =
      [⟨"Bicep", some (mkTs 2025 1 2 10 0 0), some 0, some (GOAL_WEIGHT - 0)⟩] :=
  ⟨rfl, rfl⟩

/-- **C10.** A submission with a zero accumulator still succeeds: it appends
one entry with weightLifted 0 whose remaining weight equals the previous
remaining weight (the goal for an empty table). -/
theorem submit_zero_accumulator (st : AppState) (area : String) (d : FormDate)
    (t : FormTime) (ts : Nat)
    (hzero : st.sessionTotal = 0)
    (hts : datetimeCombine d t = some ts) :
    (submitWorkout st area d t).2 = none ∧
    (submitWorkout st area d t).1.data =
      st.data ++ [{ area := area, ts := some ts, totalLifted := some 0,
                    weightLeft := currentWeightLeft st.data }] := by
  rw [submitWorkout_eq st area d t ts hts]
  simp [hzero, sub_zero]

/-- Witness for C10: submitting with accumulator 0 on the empty table. -/
theorem submit_zero_accumulator_witness :
    (submitWorkout ⟨[], 0⟩ "Back" ⟨2025, 1, 2⟩ ⟨10, 0, 0⟩).2 = none ∧
    (submitWorkout ⟨[], 0⟩ "Back" ⟨2025, 1, 2⟩ ⟨10, 0, 0⟩).1.data =
      [] ++ [{ area := "Back", ts := some (mkTs 2025 1 2 10 0 0),
               totalLifted := some 0, weightLeft := currentWeightLeft [] }] :=
  submit_zero_accumulator ⟨[], 0⟩ "Back" ⟨2025, 1, 2⟩ ⟨10, 0, 0⟩
    (mkTs 2025 1 2 10 0 0) rfl (by decide)

/-- **C2 (counterexample).** A table with a well-formed Bicep row and a row
whose Date cell is malformed loads as the empty table with a reported error:
the well-formed row is not kept, refuting the claim that only the malformed
row is excluded while all other rows are still loaded.  The second conjunct
shows the well-formed row alone does load. -/
theorem load_malformed_date_counterexample :
    load_data (Except.ok
      [⟨some "Bicep", some "January 2, 2025 at 10:00:00 AM", some "20",
        some "499980"⟩,
       ⟨some "Chest", some "garbage", some "10", some "499970"⟩]) =
      ([], some "Error loading data: time data garbage does not match format") ∧
    load_data (Except.ok
      [⟨some "Bicep", some "January 2, 2025 at 10:00:00 AM", some "20",
        some "499980"⟩]) =
      ([⟨"Bicep", some (mkTs 2025 1 2 10 0 0), some 20, some 499980⟩], none) := by
  constructor
  · decide
  · decide

/-- **C2 (amended).** If any row that survives the row filters has a Date
string that fails the fixed timestamp format, the whole conversion raises; the
loader catches the failure and reports it, returning the empty table (no row
of the input is loaded) — it does not crash. -/
theorem load_malformed_date_gives_empty (rows : List RawRow) (r : RawRow)
    (s : String)
    (hr : r ∈ filterRows rows)
    (hdate : r.date = some s)
    (hbad : parseDate s = none) :
    (load_data (Except.ok rows)).1 = [] ∧
    ((load_data (Except.ok rows)).2).isSome = true := by
  have hconv : convertRow r =
      Except.error ("time data " ++ s ++ " does not match format") := by
    simp [convertRow, toDatetimeCell, hdate, hbad]
  obtain ⟨m2, hm2⟩ := convertRows_error_of_mem hr hconv
  have hp : loadPipeline rows = Except.error m2 := by
    unfold loadPipeline
    rw [hm2]
  simp [load_data, hp]

/-- Witness for the amended C2, at the two-row counterexample table. -/
theorem load_malformed_date_gives_empty_witness :
    (load_data (Except.ok
      [⟨some "Bicep", some "January 2, 2025 at 10:00:00 AM", some "20",
        some "499980"⟩,
       ⟨some "Chest", some "garbage", some "10", some "499970"⟩])).1 = [] ∧
    ((load_data (Except.ok
      [⟨some "Bicep", some "January 2, 2025 at 10:00:00 AM", some "20",
        some "499980"⟩,
       ⟨some "Chest", some "garbage", some "10", some "499970"⟩])).2).isSome
      = true :=
  load_malformed_date_gives_empty
    [⟨some "Bicep", some "January 2, 2025 at 10:00:00 AM", some "20",
      some "499980"⟩,
     ⟨some "Chest", some "garbage", some "10", some "499970"⟩]
    ⟨some "Chest", some "garbage", some "10", some "499970"⟩ "garbage"
    (by decide) (by decide) (by decide)

/-- **C5 (counterexample).** The loader keeps a row whose category "Banana"
is outside the fixed workout-area set: membership in the set is not
enforced. -/
theorem load_unknown_category_counterexample :
    (load_data (Except.ok
      [⟨some "Banana", some "January 3, 2025 at 10:00:00 AM", some "20",
        some "499980"⟩])).1 =
      [⟨"Banana", some (mkTs 2025 1 3 10 0 0), some 20, some 499980⟩] ∧
    "Banana" ∉ WORKOUT_AREAS := by
  constructor
  · decide
  · decide

/-- **C5 (amended).** Every category value the loader produces comes from a
present Workout Area cell and is never the sentinel "Totals" (such rows are
excluded); the loader does not further restrict categories to the fixed
workout-area set. -/
theorem load_categories_no_totals (input : Except String (List RawRow))
    (e : WorkoutEntry) (he : e ∈ (load_data input).1) :
    e.area ≠ "Totals" := by
  match input with
  | Except.error m => simp [load_data] at he
  | Except.ok rows =>
    cases hp : loadPipeline rows with
    | error m => simp only [load_data, hp] at he; cases he
    | ok entries =>
      simp only [load_data, hp] at he
      unfold loadPipeline at hp
      cases hc : convertRows (filterRows rows) with
      | error m => rw [hc] at hp; exact Except.noConfusion hp
      | ok es =>
        rw [hc] at hp
        injection hp with hp
        subst hp
        have he2 : e ∈ es := (List.perm_insertionSort entryLe es).mem_iff.mp he
        obtain ⟨r, hrmem, hcr⟩ := convertRows_ok_mem hc he2
        have harea : e.area = r.workoutArea.getD "" := by
          unfold convertRow at hcr
          cases hd : toDatetimeCell r.date with
          | error m2 => rw [hd] at hcr; exact Except.noConfusion hcr
          | ok t =>
            rw [hd] at hcr
            injection hcr with hcr
            rw [← hcr]
        have hfil := List.mem_filter.mp hrmem
        have hnot : r.workoutArea ≠ some "Totals" := by
          simpa using hfil.2
        have hsome : r.workoutArea.isSome = true :=
          (List.mem_filter.mp hfil.1).2
        obtain ⟨a, ha⟩ := Option.isSome_iff_exists.mp hsome
        rw [harea, ha]
        intro hcontra
        exact hnot (by rw [ha]; simpa using hcontra)

/-- Witness for the amended C5: a loaded entry of a table that contained a
"Totals" row has a category different from "Totals". -/
theorem load_categories_no_totals_witness :
    (⟨"Bicep", some (mkTs 2025 1 2 10 0 0), some 20, some 499980⟩ :
      WorkoutEntry).area ≠ "Totals" :=
  load_categories_no_totals
    (Except.ok
      [⟨some "Totals", some "January 1, 2025 at 9:00:00 AM", some "100",
        some "0"⟩,
       ⟨some "Bicep", some "January 2, 2025 at 10:00:00 AM", some "20",
        some "499980"⟩])
    ⟨"Bicep", some (mkTs 2025 1 2 10 0 0), some 20, some 499980⟩ (by decide)

/-- **C9 (counterexample).** Starting from a sorted one-entry table, a
submission whose combined timestamp precedes the existing entry leaves the
table unsorted: the sortedness invariant is not preserved by every
submission. -/
theorem submit_earlier_timestamp_unsorted :
    sortedByTs [⟨"Bicep", some (mkTs 2025 1 2 10 0 0), some 20, some 499980⟩] ∧
    ¬ sortedByTs (submitWorkout
        ⟨[⟨"Bicep", some (mkTs 2025 1 2 10 0 0), some 20, some 499980⟩], 20⟩
        "Chest" ⟨2025, 1, 1⟩ ⟨9, 0, 0⟩).1.data := by
  constructor
  · decide
  · decide

/-- **C9 (amended).** The loaded table is always sorted non-decreasing by
timestamp; a submission appends at the end, so the invariant is preserved
exactly when the combined timestamp is not earlier than the timestamps
already in the table (it can be violated by an earlier timestamp, as the
counterexample shows). -/
theorem sorted_load_and_ordered_submit (input : Except String (List RawRow))
    (st : AppState) (area : String) (d : FormDate) (t : FormTime) (ts : Nat)
    (hsorted : sortedByTs st.data)
    (hts : datetimeCombine d t = some ts)
    (hlate : ∀ e ∈ st.data, tsLe e.ts (some ts) = true) :
    sortedByTs (load_data input).1 ∧
    sortedByTs (submitWorkout st area d t).1.data := by
  refine ⟨load_sorted input, ?_⟩
  rw [submitWorkout_eq st area d t ts hts]
  show sortedByTs (st.data ++ [_])
  rw [sortedByTs_iff_chain']
  apply List.Chain'.append ((sortedByTs_iff_chain' _).mp hsorted)
    (List.chain'_singleton _)
  intro x hx y hy
  obtain ⟨hlast, hxe⟩ := List.mem_getLast?_eq_getLast hx
  rw [List.head?_cons, Option.mem_def, Option.some.injEq] at hy
  subst hy
  subst hxe
  exact hlate _ (List.getLast_mem hlast)

/-- Witness for the amended C9: a concrete load failure and a concrete
later-timestamp submission. -/
theorem sorted_load_and_ordered_submit_witness :
    sortedByTs (load_data (Except.error "missing file")).1 ∧
    sortedByTs (submitWorkout
        ⟨[⟨"Bicep", some 100, some 20, some 499980⟩], 20⟩
        "Chest" ⟨2025, 1, 2⟩ ⟨10, 0, 0⟩).1.data :=
  sorted_load_and_ordered_submit (Except.error "missing file")
    ⟨[⟨"Bicep", some 100, some 20, some 499980⟩], 20⟩ "Chest" ⟨2025, 1, 2⟩
    ⟨10, 0, 0⟩ (mkTs 2025 1 2 10 0 0) (by decide) (by decide) (by decide)

theorem lookupDay_insertDay (d d' : Nat) (w : ℚ) :
    ∀ acc : List (Nat × ℚ × Nat),
      lookupDay d (insertDay d' w acc) =
        if d' = d then
          match lookupDay d acc with
          | some p => some (p.1 + w, p.2 + 1)
          | none => some (w, 1)
        else lookupDay d acc
  | [] => by
    by_cases h : d' = d <;> simp [insertDay, lookupDay, h]
  | (k, s, c) :: rest => by
    by_cases hkd : k = d'
    · subst hkd
      by_cases hd : k = d
      · subst hd; simp [insertDay, lookupDay]
      · simp [insertDay, lookupDay, hd]
    · by_cases hd : k = d
      · subst hd
        have hdd : ¬ (d' = k) := fun h => hkd h.symm
        simp [insertDay, lookupDay, hkd, hdd]
      · simp [insertDay, lookupDay, hkd, hd, lookupDay_insertDay d d' w rest]

theorem lookupDay_foldl (d : Nat) :
    ∀ (data : List WorkoutEntry) (acc : List (Nat × ℚ × Nat)),
      lookupDay d (data.foldl dailyStep acc) =
        combineDay (lookupDay d acc) (daySum data d) (dayCount data d)
  | [], acc => by
    cases h : lookupDay d acc <;>
      simp [daySum, dayCount, entriesOn, combineDay, h]
  | e :: rest, acc => by
    rw [List.foldl_cons]
    cases hde : entryDate e with
    | none =>
      have hstep : dailyStep acc e = acc := by simp [dailyStep, hde]
      have hnotd : ¬ (entryDate e = some d) := by simp [hde]
      rw [hstep, lookupDay_foldl d rest acc]
      simp [daySum, dayCount, entriesOn, List.filter_cons, hnotd]
    | some d' =>
      have hstep : dailyStep acc e = insertDay d' (liftedOrZero e) acc := by
        simp [dailyStep, hde]
      rw [hstep, lookupDay_foldl d rest (insertDay d' (liftedOrZero e) acc),
        lookupDay_insertDay]
      by_cases hdd : d' = d
      · subst hdd
        have hin : entryDate e = some d' := hde
        have hsum : daySum (e :: rest) d' = liftedOrZero e + daySum rest d' := by
          simp [daySum, entriesOn, List.filter_cons, hin]
        have hcnt : dayCount (e :: rest) d' = dayCount rest d' + 1 := by
          simp [dayCount, entriesOn, List.filter_cons, hin]
        rw [hsum, hcnt, if_pos rfl]
        cases h : lookupDay d' acc with
        | none => simp [combineDay]; omega
        | some p => simp [combineDay]; constructor <;> [ring; omega]
      · have hnotd : ¬ (entryDate e = some d) := by simp [hde, hdd]
        rw [if_neg hdd]
        simp [daySum, dayCount, entriesOn, List.filter_cons, hnotd]

theorem lookupDay_daily_stats (data : List WorkoutEntry) (d : Nat) :
    lookupDay d (daily_stats data) =
      if dayCount data d = 0 then none
      else some (daySum data d, dayCount data d) := by
  unfold daily_stats
  rw [lookupDay_foldl]
  simp [lookupDay, combineDay]

theorem mem_keys_insertDay (k d : Nat) (w : ℚ) :
    ∀ acc : List (Nat × ℚ × Nat),
      (k ∈ (insertDay d w acc).map Prod.fst ↔ k = d ∨ k ∈ acc.map Prod.fst)
  | [] => by simp [insertDay]
  | (k0, s, c) :: rest => by
    by_cases h : k0 = d
    · subst h
      simp [insertDay]
    · simp [insertDay, h, mem_keys_insertDay k d w rest]
      tauto

theorem nodup_keys_insertDay (d : Nat) (w : ℚ) :
    ∀ acc : List (Nat × ℚ × Nat), (acc.map Prod.fst).Nodup →
      ((insertDay d w acc).map Prod.fst).Nodup
  | [], _ => by simp [insertDay]
  | (k0, s, c) :: rest, h => by
    rw [List.map_cons, List.nodup_cons] at h
    by_cases hk : k0 = d
    · subst hk
      simpa [insertDay] using And.intro h.1 h.2
    · rw [insertDay]
      rw [if_neg hk, List.map_cons, List.nodup_cons]
      refine ⟨?_, nodup_keys_insertDay d w rest h.2⟩
      intro hmem
      rcases (mem_keys_insertDay k0 d w rest).mp hmem with h1 | h1
      · exact hk h1
      · exact h.1 h1

theorem nodup_keys_daily_stats (data : List WorkoutEntry) :
    ((daily_stats data).map Prod.fst).Nodup := by
  suffices h : ∀ acc : List (Nat × ℚ × Nat), (acc.map Prod.fst).Nodup →
      ((data.foldl dailyStep acc).map Prod.fst).Nodup by
    exact h [] (by simp)
  induction data with
  | nil => intro acc h; simpa using h
  | cons e rest ih =>
    intro acc h
    rw [List.foldl_cons]
    apply ih
    cases hde : entryDate e with
    | none => simpa [dailyStep, hde] using h
    | some d =>
      rw [dailyStep, hde]
      exact nodup_keys_insertDay d (liftedOrZero e) acc h

theorem lookupDay_isSome_iff_mem_keys (k : Nat) :
    ∀ l : List (Nat × ℚ × Nat),
      ((lookupDay k l).isSome = true ↔ k ∈ l.map Prod.fst)
  | [] => by simp [lookupDay]
  | (k0, s, c) :: rest => by
    by_cases h : k0 = k
    · subst h; simp [lookupDay]
    · have h2 : ¬ (k = k0) := fun he => h he.symm
      simp [lookupDay, h, h2, lookupDay_isSome_iff_mem_keys k rest]

theorem mem_distinctDates_iff (data : List WorkoutEntry) (d : Nat) :
    d ∈ distinctDates data ↔ dayCount data d ≠ 0 := by
  unfold distinctDates dayCount entriesOn
  rw [List.mem_dedup, List.mem_filterMap]
  constructor
  · rintro ⟨e, he, hde⟩ hlen
    rw [List.length_eq_zero] at hlen
    have hmem : e ∈ data.filter (fun e => entryDate e = some d) := by
      rw [List.mem_filter]
      exact ⟨he, by simp [hde]⟩
    rw [hlen] at hmem
    cases hmem
  · intro h
    have hne : data.filter (fun e => entryDate e = some d) ≠ [] := by
      intro hh
      exact h (by rw [hh]; rfl)
    obtain ⟨e, he⟩ := List.exists_mem_of_ne_nil _ hne
    have hf := List.mem_filter.mp he
    exact ⟨e, hf.1, by simpa using hf.2⟩

theorem keys_perm_distinctDates (data : List WorkoutEntry) :
    ((daily_stats data).map Prod.fst).Perm (distinctDates data) := by
  rw [List.perm_ext_iff_of_nodup (nodup_keys_daily_stats data)
    (by unfold distinctDates; exact List.nodup_dedup _)]
  intro k
  rw [← lookupDay_isSome_iff_mem_keys, lookupDay_daily_stats,
    mem_distinctDates_iff]
  by_cases h : dayCount data k = 0 <;> simp [h]

theorem lookupDay_eq_of_mem_nodup :
    ∀ {l : List (Nat × ℚ × Nat)}, (l.map Prod.fst).Nodup →
      ∀ {g : Nat × ℚ × Nat}, g ∈ l → lookupDay g.1 l = some (g.2.1, g.2.2)
  | [], _, _, hg => absurd hg (List.not_mem_nil _)
  | (k0, s, c) :: rest, hnd, g, hg => by
    rw [List.map_cons, List.nodup_cons] at hnd
    rcases List.mem_cons.mp hg with h | h
    · subst h; simp [lookupDay]
    · have hk : ¬ (k0 = g.1) := by
        intro he
        apply hnd.1
        rw [he]
        exact List.mem_map.mpr ⟨g, h, rfl⟩
      rw [lookupDay, if_neg hk]
      exact lookupDay_eq_of_mem_nodup hnd.2 h

theorem mem_daily_stats_eq (data : List WorkoutEntry) :
    ∀ g ∈ daily_stats data,
      g.2.1 = daySum data g.1 ∧ g.2.2 = dayCount data g.1 := by
  intro g hg
  have hl : lookupDay g.1 (daily_stats data) = some (g.2.1, g.2.2) :=
    lookupDay_eq_of_mem_nodup (nodup_keys_daily_stats data) hg
  rw [lookupDay_daily_stats] at hl
  by_cases h : dayCount data g.1 = 0
  · rw [if_pos h] at hl
    exact Option.noConfusion hl
  · rw [if_neg h] at hl
    injection hl with hl
    exact ⟨(congrArg Prod.fst hl).symm, (congrArg Prod.snd hl).symm⟩

theorem daily_sums_perm (data : List WorkoutEntry) :
    ((daily_stats data).map (fun g => g.2.1)).Perm
      ((distinctDates data).map (daySum data)) := by
  have h1 : (daily_stats data).map (fun g => g.2.1) =
      (daily_stats data).map (fun g => daySum data g.1) :=
    List.map_congr_left (fun g hg => (mem_daily_stats_eq data g hg).1)
  have h2 : (daily_stats data).map (fun g => daySum data g.1) =
      ((daily_stats data).map Prod.fst).map (daySum data) := by
    rw [List.map_map]
    rfl
  rw [h1, h2]
  exact (keys_perm_distinctDates data).map (daySum data)

theorem maximum_eq_of_perm {l l2 : List ℚ} (h : l.Perm l2) :
    l.maximum = l2.maximum := by
  rcases h2 : l2.maximum with _ | m
  · have h2b : l2 = [] := List.maximum_eq_bot.mp h2
    subst h2b
    have hnil : l = [] := List.Perm.eq_nil h
    subst hnil
    rfl
  · have h2c : l2.maximum = (↑m : WithBot ℚ) := h2
    rw [List.maximum_eq_coe_iff] at h2c
    show l.maximum = (↑m : WithBot ℚ)
    rw [List.maximum_eq_coe_iff]
    exact ⟨h.mem_iff.mpr h2c.1, fun a ha => h2c.2 a (h.mem_iff.mp ha)⟩

/-- **C8.** The daily statistics group the table by calendar date of the
timestamp: every group row carries the per-day sum of weightLifted and the
per-day count of entries; the three reported summary numbers are the mean of
the per-day sums, the max of the per-day sums, and the number of distinct
days; and two same-day entries with weightLifted 100 and 50 give that date
sum 150 and count 2. -/
theorem daily_stats_spec (data : List WorkoutEntry) :
    (∀ g ∈ daily_stats data,
      g.2.1 = daySum data g.1 ∧ g.2.2 = dayCount data g.1) ∧
    dailyCountMetric data = (distinctDates data).length ∧
    dailyMeanMetric data =
      ((distinctDates data).map (daySum data)).sum /
        ((distinctDates data).length : ℚ) ∧
    dailyMaxMetric data = ((distinctDates data).map (daySum data)).maximum ∧
    lookupDay (dateOf 100000) (daily_stats
      [⟨"Bicep", some 100000, some 100, some 499900⟩,
       ⟨"Chest", some 100500, some 50, some 499850⟩]) = some (150, 2) := by
  have hlen : (daily_stats data).length = (distinctDates data).length := by
    have h := (keys_perm_distinctDates data).length_eq
    simpa using h
  refine ⟨mem_daily_stats_eq data, ?_, ?_, ?_, ?_⟩
  · simpa [dailyCountMetric] using hlen
  · unfold dailyMeanMetric
    rw [(daily_sums_perm data).sum_eq, hlen]
  · unfold dailyMaxMetric
    exact maximum_eq_of_perm (daily_sums_perm data)
  · norm_num [daily_stats, dailyStep, entryDate, dateOf, liftedOrZero,
      insertDay, lookupDay]

end WeightQuest
